import Mathlib

/-!
Verification development for the OpenAI-compatible Cloudflare Workers AI
proxy (src/worker.js).

JavaScript values are modelled by the inductive type Js: the JSON values
plus an explicit undefined.  Where the source's semantics depends on
UTF-16 indexing (stream chunking via String.prototype.slice, token
estimation via String.prototype.length), text is modelled as a list of
UTF-16 code units (List Nat); elsewhere Lean String (a list of code
points) is used, which coincides with the UTF-16 view on the ASCII-only
literals the source manipulates.

Functions that would raise a JavaScript TypeError on inputs outside the
shapes the program handles return Option, with none standing for the
thrown exception.
-/

namespace Worker

/-- Model of a JavaScript value: JSON values plus undefined.  Numbers are
modelled as exact rationals; the source performs no arithmetic on them
other than the token-count sums, for which IEEE doubles are exact. -/
inductive Js where
  | undefined
  | null
  | bool (b : Bool)
  | num (q : ℚ)
  | str (s : String)
  | arr (elems : List Js)
  | obj (fields : List (String × Js))

/-- Property read v.k: for an object, the first binding of the key (or
undefined); for every other value, undefined.  (In JavaScript a property
read on null or undefined throws; no claim exercises that corner, and
callers that would hit it model the throw themselves.) -/
def getProp (v : Js) (k : String) : Js :=
  match v with
  | .obj fs => (fs.lookup k).getD .undefined
  | _ => .undefined

/-- JavaScript truthiness.  (NaN does not arise: Js.num is exact.) -/
def truthy : Js → Bool
  | .undefined => false
  | .null => false
  | .bool b => b
  | .num q => decide (q ≠ 0)
  | .str s => decide (s.data ≠ [])
  | .arr _ => true
  | .obj _ => true

/-- JavaScript a || b : the first truthy operand, else the second. -/
def jsOr (a b : Js) : Js := if truthy a then a else b

/-- JavaScript a ?? b : nullish coalescing. -/
def jsNullish (a b : Js) : Js :=
  match a with
  | .undefined => b
  | .null => b
  | _ => a

/-- Array.isArray. -/
def isArr : Js → Bool
  | .arr _ => true
  | _ => false

/-- v === "s" for a string literal s. -/
def jsIsStr (v : Js) (s : String) : Bool :=
  match v with
  | .str t => t == s
  | _ => false

/-- String.prototype.startsWith.  (Code-point comparison; equivalent to
the UTF-16 comparison because every needle used by the source is ASCII.) -/
def jsStartsWith (s p : String) : Bool :=
  s.data.take p.data.length == p.data

/-- Decimal rendering of the fractional part of a rational, at most
fuel digits (all rationals the source renders terminate much earlier). -/
def fracDigits : Nat → Nat → Nat → List Char
  | 0, _, _ => []
  | _, 0, _ => []
  | fuel + 1, r, d => Char.ofNat (48 + r * 10 / d) :: fracDigits fuel (r * 10 % d) d

/-- Number-to-string conversion as JavaScript renders the decimal
literals occurring in the source (0.7, 0.9, integers). -/
def ratToJsString (q : ℚ) : String :=
  (if q.num < 0 then ("-") else ("")) ++
    toString (q.num.natAbs / q.den) ++
    (if q.den = 1 then ("")
     else String.mk ('.' :: fracDigits 20 (q.num.natAbs % q.den) q.den))

mutual

/-- Array.prototype.join element rendering: null and undefined render
empty, others via String(-conversion). -/
def jsJoinElem : Js → String
  | .undefined => ""
  | .null => ""
  | .bool b => if b then ("true") else ("false")
  | .num q => ratToJsString q
  | .str s => s
  | .arr xs => String.intercalate (",") (jsJoinList xs)
  | .obj _ => "[object Object]"

def jsJoinList : List Js → List String
  | [] => []
  | x :: xs => jsJoinElem x :: jsJoinList xs

end

/-- String(v) conversion, as used by template literals. -/
def jsToString : Js → String
  | .undefined => "undefined"
  | .null => "null"
  | .bool b => if b then ("true") else ("false")
  | .num q => ratToJsString q
  | .str s => s
  | .arr xs => String.intercalate (",") (jsJoinList xs)
  | .obj _ => "[object Object]"

/-- Hex digit for JSON escapes. -/
def hexDigitChar (n : Nat) : Char :=
  if n < 10 then Char.ofNat (48 + n) else Char.ofNat (87 + n)

/-- JSON string-character escaping. -/
def jsonEscapeChar (c : Char) : List Char :=
  if c = '"' then ['\\', '"']
  else if c = '\\' then ['\\', '\\']
  else if c = '\n' then ['\\', 'n']
  else if c = '\r' then ['\\', 'r']
  else if c = '\t' then ['\\', 't']
  else if c.toNat < 32 then
    ['\\', 'u', '0', '0', hexDigitChar (c.toNat / 16), hexDigitChar (c.toNat % 16)]
  else [c]

/-- JSON string quoting. -/
def jsonQuote (s : String) : String :=
  String.mk ('"' :: ((s.data.map jsonEscapeChar).flatten ++ ['"']))

mutual

/-- JSON.stringify; none models the undefined result JavaScript returns
for an undefined top-level value. -/
def jsonStringify : Js → Option String
  | .undefined => none
  | .null => some ("null")
  | .bool b => some (if b then ("true") else ("false"))
  | .num q => some (ratToJsString q)
  | .str s => some (jsonQuote s)
  | .arr xs => some ("[" ++ String.intercalate (",") (jsonStringifyArr xs) ++ "]")
  | .obj fs => some ("\x7b" ++ String.intercalate (",") (jsonStringifyObj fs) ++ "\x7d")

def jsonStringifyArr : List Js → List String
  | [] => []
  | x :: xs => ((jsonStringify x).getD ("null")) :: jsonStringifyArr xs

def jsonStringifyObj : List (String × Js) → List String
  | [] => []
  | (k, v) :: fs =>
    match jsonStringify v with
    | some sv => (jsonQuote k ++ (":") ++ sv) :: jsonStringifyObj fs
    | none => jsonStringifyObj fs

end

/-- UTF-16 encoding of one code point. -/
def utf16EncodeChar (cp : Nat) : List Nat :=
  if cp < 65536 then [cp]
  else [55296 + (cp - 65536) / 1024, 56320 + (cp - 65536) % 1024]

/-- UTF-16 encoding of a code-point sequence. -/
def utf16Encode (cps : List Nat) : List Nat := (cps.map utf16EncodeChar).flatten

/-- The UTF-16 code units of a Lean string. -/
def stringUnits (s : String) : List Nat := utf16Encode (s.data.map Char.toNat)

/-- The regex test /[一-龥]/ on one UTF-16 unit. -/
def isCJK (u : Nat) : Bool := decide (0x4e00 ≤ u ∧ u ≤ 0x9fa5)

/-- estimateTokens (worker.js lines 60-65) on the UTF-16 units of the
text.  Math.ceil(n / 1.8) is the exact rational ceiling of 5n/9 and
Math.ceil(n / 4) the ceiling of n/4 for every length the double
computation can represent exactly (n below 2^50), so both are embedded
as exact natural-number ceilings. -/
def estimateTokensUnits (units : List Nat) : Nat :=
  if units = [] then 0
  else if units.any isCJK then (5 * units.length + 8) / 9
  else (units.length + 3) / 4

/-- estimateTokens on a string. -/
def estimateTokens (s : String) : Nat := estimateTokensUnits (stringUnits s)

/-- The for-loop of createStreamResponse (worker.js lines 189-198):
slice the UTF-16 units into consecutive chunks of STREAM_CHUNK_SIZE =
100.  The fuel argument (at least the list length at every call) makes
the recursion structural. -/
def chunkAux : Nat → List Nat → List (List Nat)
  | _, [] => []
  | 0, l => [l]
  | fuel + 1, u :: us => ((u :: us).take 100) :: chunkAux fuel ((u :: us).drop 100)

/-- The chunk sequence emitted by the createStreamResponse loop. -/
def chunkUnits (l : List Nat) : List (List Nat) := chunkAux l.length l

/-- One SSE frame of createStreamResponse, abstracted to its delta
payload: roleOpen is the frame with delta (role assistant, content "")
and null finish_reason; contentDelta carries one chunk with null
finish_reason; terminal is the empty delta with finish_reason stop;
done is the literal end sentinel.  The id, created and model fields are
identical in every frame and carry no claim content. -/
inductive StreamFrame where
  | roleOpen
  | contentDelta (chunk : List Nat)
  | terminal
  | done

/-- The ordered frame sequence enqueued by createStreamResponse
(worker.js lines 174-212). -/
def createStreamFrames (units : List Nat) : List StreamFrame :=
  .roleOpen :: ((chunkUnits units).map StreamFrame.contentDelta ++ [.terminal, .done])

/-- The literal cue "Assistant: " (11 characters). -/
def assistantCue : List Char := ("Assistant: ").data

/-- content.includes("Assistant: "). -/
def hasCue : List Char → Bool
  | [] => false
  | c :: cs => if (c :: cs).take 11 = assistantCue then true else hasCue cs

/-- content.split("Assistant: "): left-to-right scan, splitting at each
occurrence of the cue (11 characters).  Fuel (at least the list length)
makes the recursion structural. -/
def splitCueAux : Nat → List Char → List (List Char)
  | _, [] => [[]]
  | 0, l => [l]
  | fuel + 1, c :: cs =>
    if (c :: cs).take 11 = assistantCue then
      [] :: splitCueAux fuel ((c :: cs).drop 11)
    else
      match splitCueAux fuel cs with
      | [] => [[c]]
      | h :: t => (c :: h) :: t

/-- content.split("Assistant: ") on a character list. -/
def jsSplitCue (l : List Char) : List (List Char) := splitCueAux l.length l

/-- The post-processing of extractContent (worker.js lines 168-170):
content.includes("Assistant: ") ? content.split("Assistant: ").pop() :
content. -/
def cleanContentChars (l : List Char) : String :=
  if hasCue l then String.mk ((jsSplitCue l).getLastD l) else String.mk l

/-- cleanContentChars on a string. -/
def cleanContent (s : String) : String := cleanContentChars s.data

/-- x?.k : optional chaining member access. -/
def optMember (v : Js) (k : String) : Js :=
  match v with
  | .undefined => .undefined
  | .null => .undefined
  | x => getProp x k

/-- x?.[0] : optional chaining index access (string indexing yields a
one-character string as in JavaScript). -/
def optIndex0 (v : Js) : Js :=
  match v with
  | .undefined => .undefined
  | .null => .undefined
  | .arr xs => xs.getD 0 .undefined
  | .str s =>
    match s.data with
    | [] => .undefined
    | c :: _ => .str (String.mk [c])
  | _ => .undefined

/-- response.choices?.[0]?.message?.content. -/
def choicesContent (response : Js) : Js :=
  optMember (optMember (optIndex0 (getProp response ("choices"))) ("message")) ("content")

/-- One element of the structured output array: msg.content must be an
array (a JavaScript TypeError, modelled none, otherwise); keep entries
with type === "output_text" and take their text (Array.join rendering
for a non-string text value). -/
def outputTexts (msg : Js) : Option (List String) :=
  match getProp msg ("content") with
  | .arr content =>
    some ((content.filter (fun c => jsIsStr (getProp c ("type")) ("output_text"))).map
      (fun c => jsJoinElem (getProp c ("text"))))
  | _ => none

/-- response.output.flatMap(...).join("\n") of extractContent's
structured branch (worker.js lines 146-153). -/
def extractOutput (output : List Js) : Option String :=
  (output.mapM outputTexts).map (fun ls => String.intercalate ("\n") ls.flatten)

/-- The priority probe and post-processing of extractContent (worker.js
lines 156-170): response.response || response.generated_text ||
response.choices?.[0]?.message?.content || (typeof response === "string"
? response : null); on no truthy match, JSON.stringify(response).  A
truthy non-string probe result leads to a TypeError on .includes (or, for
an array, a non-string return the rest of the program cannot consume);
both are modelled as none.  No claim exercises those corners. -/
def extractProbe (response : Js) : Option String :=
  let content :=
    jsOr (jsOr (jsOr (getProp response ("response")) (getProp response ("generated_text")))
      (choicesContent response))
      (match response with
       | .str _ => response
       | _ => .null)
  if truthy content then
    match content with
    | .str s => some (cleanContent s)
    | _ => none
  else jsonStringify response

/-- extractContent (worker.js lines 144-171). -/
def extractContent (response : Js) (useResponsesAPI : Bool) : Option String :=
  match useResponsesAPI, getProp response ("output") with
  | true, .arr output => extractOutput output
  | _, _ => extractProbe response

/-- The fixed fallback instructions string of buildAIRequest. -/
def defaultSystemPrompt : String := "You are a helpful assistant."

/-- buildAIRequest (worker.js lines 86-117).  none models the TypeError
JavaScript raises when body.messages is not an array (unreachable behind
handleChatCompletion's validation). -/
def buildAIRequest (body : Js) (cfModel : String) : Option Js :=
  match getProp body ("messages") with
  | .arr ms =>
    if jsStartsWith cfModel ("@cf/openai/gpt-oss") then
      let systemMsg :=
        jsOr (((ms.find? (fun m => jsIsStr (getProp m ("role")) ("system"))).map
          (fun m => getProp m ("content"))).getD .undefined) (.str defaultSystemPrompt)
      let userMsgs :=
        String.intercalate ("\n")
          ((ms.filter (fun m => jsIsStr (getProp m ("role")) ("user"))).map
            (fun m => jsJoinElem (getProp m ("content"))))
      some (.obj
        [("input", .str userMsgs),
         ("instructions", systemMsg),
         ("temperature", jsNullish (getProp body ("temperature")) (.num (7 / 10))),
         ("top_p", jsNullish (getProp body ("top_p")) (.num (9 / 10))),
         ("max_tokens", jsNullish (getProp body ("max_tokens")) (.num 2048)),
         ("reasoning", jsNullish (getProp body ("reasoning"))
           (.obj [("effort", .str ("medium"))]))])
    else
      some (.obj
        [("messages", .arr (ms.map (fun m => .obj
           [("role", getProp m ("role")),
            ("content", jsOr (getProp m ("content")) (.str ("")))]))),
         ("temperature", jsNullish (getProp body ("temperature")) (.num (7 / 10))),
         ("top_p", jsNullish (getProp body ("top_p")) (.num (9 / 10))),
         ("max_tokens", jsNullish (getProp body ("max_tokens")) (.num 4096))])
  | _ => none

/-- roleMap[m.role] as rendered by the template literal of callAI's
fallback: the three known roles map to their labels, everything else
renders as "undefined". -/
def roleLabel : Js → String
  | .str s =>
    if s == ("system") then ("System")
    else if s == ("user") then ("User")
    else if s == ("assistant") then ("Assistant")
    else ("undefined")
  | _ => "undefined"

/-- The flattened prompt built by callAI's fallback (worker.js lines
128-133); none models the TypeError when body.messages is not an array. -/
def fallbackPrompt (body : Js) : Option String :=
  match getProp body ("messages") with
  | .arr ms =>
    some (String.intercalate ("\n\n")
      (ms.map (fun m => roleLabel (getProp m ("role")) ++ (": ") ++ jsToString (getProp m ("content"))))
      ++ ("\n\nAssistant: "))
  | _ => none

/-- callAI (worker.js lines 119-142).  The backend env.AI.run is the
abstract capability run; a thrown backend error of type ε propagates as
Except.error.  The outer Option models the JavaScript TypeError while
building the fallback prompt. -/
def callAI {ε : Type} (run : String → Js → Except ε Js) (cfModel : String)
    (aiRequest : Js) (body : Js) (useResponsesAPI : Bool) : Option (Except ε Js) :=
  match run cfModel aiRequest with
  | .ok r => some (.ok r)
  | .error e =>
    if useResponsesAPI then some (.error e)
    else
      match fallbackPrompt body with
      | none => none
      | some prompt =>
        some (run cfModel (.obj
          [("prompt", .str prompt),
           ("temperature", getProp aiRequest ("temperature")),
           ("top_p", getProp aiRequest ("top_p")),
           ("max_tokens", getProp aiRequest ("max_tokens"))]))

/-- MODEL_MAP (worker.js lines 11-18). -/
def MODEL_MAP : List (String × String) :=
  [("deepseek-r1", "@cf/deepseek-ai/deepseek-r1-distill-qwen-32b"),
   ("gpt-oss-120b", "@cf/openai/gpt-oss-120b"),
   ("gpt-oss-20b", "@cf/openai/gpt-oss-20b"),
   ("llama-4-scout", "@cf/meta/llama-4-scout-17b-16e-instruct"),
   ("qwen2.5-coder", "@cf/qwen/qwen2.5-coder-32b-instruct"),
   ("gemma-3", "@cf/google/gemma-3-12b-it")]

/-- APIError (worker.js lines 28-34). -/
structure APIError where
  message : String
  statusCode : Nat
  code : String

/-- A failure escaping handleChatCompletion: a thrown APIError, a thrown
backend error, or a modelled JavaScript TypeError (caught at the fetch
entry point as a 500). -/
inductive HandleErr (ε : Type) where
  | api (e : APIError)
  | backend (e : ε)
  | jsError

/-- The successful outcome of handleChatCompletion: exactly one of a
completion JSON body or a stream frame sequence. -/
inductive ChatOutcome where
  | completion (body : Js)
  | stream (frames : List StreamFrame)

/-- body.model || "deepseek-r1" (worker.js line 234). -/
def resolveModel (body : Js) : Js :=
  jsOr (getProp body ("model")) (.str ("deepseek-r1"))

/-- The body.messages read of handleChatCompletion (worker.js line 229):
a property read on a null or undefined base value throws a TypeError
(none); every other base yields the property value.  request.json() can
produce null (the JSON text "null") but never undefined. -/
def readMessages (body : Js) : Option Js :=
  match body with
  | .null => none
  | .undefined => none
  | _ => some (getProp body ("messages"))

/-- handleChatCompletion (worker.js lines 225-278).  The backend, the
random completion id and the clock are parameters; the request body is
the parsed JSON value.  A null (or undefined) body makes the
body.messages read throw, which the fetch entry point maps to a 500
internal_error. -/
def handleChatCompletion {ε : Type} (run : String → Js → Except ε Js)
    (completionId : String) (timestamp : Int) (body : Js) :
    Except (HandleErr ε) ChatOutcome :=
  match readMessages body with
  | none => .error .jsError
  | some (.arr (m0 :: ms)) =>
    let model := resolveModel body
    match (match model with
           | .str s => MODEL_MAP.lookup s
           | _ => none) with
    | none =>
      .error (.api ⟨"Model '" ++ jsToString model ++ "' not supported", 400, "model_not_found"⟩)
    | some cfModel =>
      let useResponsesAPI := jsStartsWith cfModel ("@cf/openai/gpt-oss")
      match buildAIRequest body cfModel with
      | none => .error .jsError
      | some aiRequest =>
        match callAI run cfModel aiRequest body useResponsesAPI with
        | none => .error .jsError
        | some (.error e) => .error (.backend e)
        | some (.ok response) =>
          match extractContent response useResponsesAPI with
          | none => .error .jsError
          | some content =>
            if truthy (getProp body ("stream")) then
              .ok (.stream (createStreamFrames (stringUnits content)))
            else
              match jsonStringify (.arr (m0 :: ms)) with
              | none => .error .jsError
              | some messagesText =>
                let promptTokens := estimateTokens messagesText
                let completionTokens := estimateTokens content
                .ok (.completion (.obj
                  [("id", .str completionId),
                   ("object", .str ("chat.completion")),
                   ("created", .num (timestamp : ℚ)),
                   ("model", model),
                   ("choices", .arr [.obj
                     [("index", .num 0),
                      ("message", .obj [("role", .str ("assistant")), ("content", .str content)]),
                      ("finish_reason", .str ("stop"))]]),
                   ("usage", .obj
                     [("prompt_tokens", .num (promptTokens : ℚ)),
                      ("completion_tokens", .num (completionTokens : ℚ)),
                      ("total_tokens", .num ((promptTokens : ℚ) + (completionTokens : ℚ)))])]))
  | _ => .error (.api ⟨"Messages must be a non-empty array", 400, "invalid_parameter"⟩)

/-- env.VALID_API_KEYS ? env.VALID_API_KEYS.split(",") : [] — the split
on a character list (String.prototype.split with a one-character
separator). -/
def splitComma : List Char → List Char → List (List Char)
  | [], acc => [acc.reverse]
  | c :: cs, acc =>
    if c = ',' then acc.reverse :: splitComma cs []
    else splitComma cs (c :: acc)

/-- validateAuth (worker.js lines 68-83).  authHeader none models an
absent Authorization header (headers.get returns null); validKeysEnv
none models an unset VALID_API_KEYS binding.  substring(7) is a drop of
7 units, all ASCII here. -/
def validateAuth (authHeader : Option String) (validKeysEnv : Option String) :
    Except APIError String :=
  match authHeader with
  | none => .error ⟨"API key required", 401, "invalid_api_key"⟩
  | some a =>
    if a.data = [] ∨ jsStartsWith a ("Bearer ") = false then
      .error ⟨"API key required", 401, "invalid_api_key"⟩
    else
      let apiKey := String.mk (a.data.drop 7)
      let validApiKeys :=
        match validKeysEnv with
        | some e => if e.data = [] then [] else (splitComma e.data []).map String.mk
        | none => ([] : List String)
      if validApiKeys.length = 0 ∨ apiKey ∉ validApiKeys then
        .error ⟨"Invalid API key", 401, "invalid_api_key"⟩
      else .ok apiKey

/-- Decimal digit test for parseInt. -/
def isDecDigit (c : Char) : Bool := decide (48 ≤ c.toNat ∧ c.toNat ≤ 57)

/-- Hexadecimal digit test for parseInt. -/
def isHexDigit (c : Char) : Bool :=
  decide ((48 ≤ c.toNat ∧ c.toNat ≤ 57) ∨ (97 ≤ c.toNat ∧ c.toNat ≤ 102) ∨
    (65 ≤ c.toNat ∧ c.toNat ≤ 70))

/-- Hexadecimal digit value. -/
def hexVal (c : Char) : Nat :=
  if 48 ≤ c.toNat ∧ c.toNat ≤ 57 then c.toNat - 48
  else if 97 ≤ c.toNat then c.toNat - 87
  else c.toNat - 55

/-- Longest leading run of decimal digits, accumulated. -/
def decDigitsAux : List Char → Nat → Nat
  | [], acc => acc
  | c :: cs, acc =>
    if isDecDigit c then decDigitsAux cs (acc * 10 + (c.toNat - 48)) else acc

/-- Longest leading run of hexadecimal digits, accumulated. -/
def hexDigitsAux : List Char → Nat → Nat
  | [], acc => acc
  | c :: cs, acc =>
    if isHexDigit c then hexDigitsAux cs (acc * 16 + hexVal c) else acc

/-- The whitespace parseInt skips (the forms a Content-Length header can
carry). -/
def isJsSpace (c : Char) : Bool :=
  (c == ' ') || (c == '\t') || (c == '\n') || (c == '\r')

/-- The digit run of parseInt after sign handling: auto-detected 0x/0X
hexadecimal, else decimal; none models NaN. -/
def parseUnsigned : List Char → Option Nat
  | [] => none
  | '0' :: 'x' :: rest =>
    (match rest with
     | [] => none
     | d :: _ => if isHexDigit d then some (hexDigitsAux rest 0) else none)
  | '0' :: 'X' :: rest =>
    (match rest with
     | [] => none
     | d :: _ => if isHexDigit d then some (hexDigitsAux rest 0) else none)
  | c :: cs =>
    if isDecDigit c then some (decDigitsAux (c :: cs) 0) else none

/-- parseInt(s) with no radix argument; none models NaN. -/
def jsParseInt (s : String) : Option Int :=
  match s.data.dropWhile isJsSpace with
  | '-' :: rest => (parseUnsigned rest).map (fun n => -(n : Int))
  | '+' :: rest => (parseUnsigned rest).map (fun n => (n : Int))
  | rest => (parseUnsigned rest).map (fun n => (n : Int))

/-- The inbound request as the fetch handler sees it: method, pathname,
the Authorization and Content-Length headers, and the parsed JSON body. -/
structure HttpReq where
  method : String
  path : String
  authorization : Option String
  contentLength : Option String
  body : Js

/-- The observable response classes of the fetch entry point. -/
inductive FetchOut where
  | options204
  | health
  | models
  | ok (o : ChatOutcome)
  | err (e : APIError)

/-- The top-level catch of fetch: an APIError maps to its own error
response, everything else to a 500 internal_error. -/
def mapHandleResult {ε : Type} : Except (HandleErr ε) ChatOutcome → FetchOut
  | .ok o => .ok o
  | .error (.api e) => .err e
  | .error (.backend _) => .err ⟨"Internal server error", 500, "internal_error"⟩
  | .error .jsError => .err ⟨"Internal server error", 500, "internal_error"⟩

/-- The request-size guard of fetch (worker.js lines 325-328):
contentLength && parseInt(contentLength) > CONFIG.MAX_REQUEST_SIZE,
where a missing header is null (falsy), an empty header string is falsy,
and a NaN comparison is false. -/
def payloadCheck (contentLength : Option String) : Bool :=
  match contentLength with
  | none => false
  | some s =>
    (!(s.data == [])) &&
      (match jsParseInt s with
       | some v => decide (v > 1048576)
       | none => false)

/-- fetch (worker.js lines 300-348): OPTIONS preflight, public routes,
authentication, the size guard, the chat route, 404, and the top-level
error mapping. -/
def fetchHandler {ε : Type} (run : String → Js → Except ε Js)
    (validKeysEnv : Option String) (completionId : String) (timestamp : Int)
    (req : HttpReq) : FetchOut :=
  if req.method == ("OPTIONS") then .options204
  else if req.path == ("/health") && req.method == ("GET") then .health
  else if req.path == ("/v1/models") && req.method == ("GET") then .models
  else
    match validateAuth req.authorization validKeysEnv with
    | .error e => .err e
    | .ok _ =>
      if req.path == ("/v1/chat/completions") && req.method == ("POST") then
        if payloadCheck req.contentLength then
          .err ⟨"Request body too large", 413, "payload_too_large"⟩
        else mapHandleResult (handleChatCompletion run completionId timestamp req.body)
      else .err ⟨"Not found", 404, "not_found"⟩

/-- A chat message of the public data model embedded as a Js object. -/
def mkMsg (role content : String) : Js :=
  .obj [("role", .str role), ("content", .str content)]

/-- A request body holding an embedded message list. -/
def mkBody (msgs : List (String × String)) : Js :=
  .obj [("messages", .arr (msgs.map (fun m => mkMsg m.1 m.2)))]

/-- Modelled from the spec: the role label of the flattened transcript. -/
def specRoleLabel (r : String) : String :=
  if r = ("system") then ("System")
  else if r = ("user") then ("User")
  else ("Assistant")

/-- Modelled from the spec: the flattened fallback transcript — one
"RoleLabel: content" line per message joined by blank lines, then the
trailing "Assistant: " cue. -/
def specTranscript (msgs : List (String × String)) : String :=
  String.intercalate ("\n\n") (msgs.map (fun m => specRoleLabel m.1 ++ (": ") ++ m.2)) ++
    ("\n\nAssistant: ")

/-- Modelled from the spec: the newline-join of the user-role contents in
order. -/
def specUserInput (msgs : List (String × String)) : String :=
  String.intercalate ("\n") ((msgs.filter (fun m => m.1 == ("user"))).map Prod.snd)

/-- Modelled from the spec, amended: the first system-role content, or the
default when none exists or that content is empty. -/
def specInstructions (msgs : List (String × String)) : String :=
  match msgs.find? (fun m => m.1 == ("system")) with
  | some m => if m.2 = ("") then defaultSystemPrompt else m.2
  | none => defaultSystemPrompt

/-- A structured-output content entry (type, text) embedded as Js. -/
def jsOfEntry (e : String × String) : Js :=
  .obj [("type", .str e.1), ("text", .str e.2)]

/-- A structured-output element with its content entry list. -/
def jsOfElem (es : List (String × String)) : Js :=
  .obj [("content", .arr (es.map jsOfEntry))]

/-- A structured backend response with the given output elements. -/
def mkStructuredResponse (elems : List (List (String × String))) : Js :=
  .obj [("output", .arr (elems.map jsOfElem))]

/-- Modelled from the spec: the newline-join, in order, of the text of
every output_text entry across all elements. -/
def specOutputJoin (elems : List (List (String × String))) : String :=
  String.intercalate ("\n")
    ((elems.map (fun es => (es.filter (fun e => e.1 == ("output_text"))).map Prod.snd)).flatten)

end Worker

namespace Worker

set_option maxRecDepth 8000

/-! Basic computation lemmas for the embedded shapes. -/

lemma getProp_mkMsg_role (r c : String) : getProp (mkMsg r c) ("role") = Js.str r := rfl

lemma getProp_mkMsg_content (r c : String) : getProp (mkMsg r c) ("content") = Js.str c := rfl

lemma getProp_mkBody_messages (msgs : List (String × String)) :
    getProp (mkBody msgs) ("messages") = Js.arr (msgs.map (fun m => mkMsg m.1 m.2)) := rfl

lemma jsIsStr_str (t s : String) : jsIsStr (Js.str t) s = (t == s) := rfl

lemma jsJoinElem_str (s : String) : jsJoinElem (Js.str s) = s := rfl

/-! Token estimator: claim C7. -/

/-- C7 (amended): for every non-empty text the estimate is strictly
positive and for empty text it is 0; for equal-length texts of length at
least two, one containing a CJK character and the other pure ASCII, the
CJK-containing text's estimate is strictly higher (the strict comparison
fails only at length one, where both divisors ceil to 1). -/
theorem estimateTokens_spec :
    (∀ units : List Nat, units ≠ [] → 0 < estimateTokensUnits units) ∧
    (estimateTokensUnits [] = 0 ∧ estimateTokens ("") = 0) ∧
    (∀ u1 u2 : List Nat, u1.length = u2.length → 2 ≤ u1.length →
      u1.any isCJK = true → (∀ x ∈ u2, x < 128) →
      estimateTokensUnits u2 < estimateTokensUnits u1) := by
  refine ⟨?_, ⟨rfl, rfl⟩, ?_⟩
  · intro units h
    have hl : 1 ≤ units.length := by
      cases units with
      | nil => exact absurd rfl h
      | cons a l => simp
    unfold estimateTokensUnits
    rw [if_neg h]
    split <;> omega
  · intro u1 u2 hlen h2 hcjk hascii
    have h1ne : u1 ≠ [] := by
      intro h
      rw [h] at h2
      simp at h2
    have h2ne : u2 ≠ [] := by
      intro h
      rw [h] at hlen
      simp only [List.length_nil] at hlen
      omega
    have h2cjk : u2.any isCJK = false := by
      rw [List.any_eq_false]
      intro x hx
      have := hascii x hx
      simp only [isCJK, decide_eq_true_eq]
      omega
    unfold estimateTokensUnits
    rw [if_neg h1ne, if_neg h2ne, if_pos hcjk, if_neg (by rw [h2cjk]; simp)]
    rw [hlen]
    have hb := Nat.div_add_mod (u2.length + 3) 4
    have hc := Nat.div_add_mod (5 * u2.length + 8) 9
    have hb2 : (u2.length + 3) % 4 < 4 := Nat.mod_lt _ (by norm_num)
    have hc2 : (5 * u2.length + 8) % 9 < 9 := Nat.mod_lt _ (by norm_num)
    omega

/-- Witness for C7 at concrete inputs. -/
theorem estimateTokens_spec_witness :
    0 < estimateTokensUnits (stringUnits ("hi")) ∧
    estimateTokensUnits (stringUnits ("ab")) < estimateTokensUnits (stringUnits ("中中")) :=
  ⟨estimateTokens_spec.1 _ (by decide),
   estimateTokens_spec.2.2 _ _ (by decide) (by decide) (by decide) (by decide)⟩

/-- Counterexample to C7 as stated: at equal length one, a CJK text and
an ASCII text receive the same estimate, so "strictly higher" fails. -/
theorem estimateTokens_len1_not_strict :
    (stringUnits ("中")).length = (stringUnits ("a")).length ∧
    (stringUnits ("中")).any isCJK = true ∧
    (∀ x ∈ stringUnits ("a"), x < 128) ∧
    ¬ (estimateTokens ("a") < estimateTokens ("中")) := by
  refine ⟨rfl, rfl, by decide, by decide⟩

/-! Stream chunking: claims C5 and C8. -/

lemma chunkAux_step (n : Nat) (l : List Nat) (h : l ≠ []) :
    chunkAux (n + 1) l = l.take 100 :: chunkAux n (l.drop 100) := by
  cases l with
  | nil => exact absurd rfl h
  | cons u us => rfl

lemma chunkAux_nil (fuel : Nat) : chunkAux fuel [] = [] := by
  cases fuel <;> rfl

lemma chunkAux_ne_nil (fuel : Nat) (l : List Nat) (h : l ≠ []) : chunkAux fuel l ≠ [] := by
  cases l with
  | nil => exact absurd rfl h
  | cons u us => cases fuel <;> simp [chunkAux]

lemma chunkAux_flatten :
    ∀ (fuel : Nat) (l : List Nat), l.length ≤ fuel → (chunkAux fuel l).flatten = l := by
  intro fuel
  induction fuel with
  | zero =>
    intro l hl
    have : l = [] := List.eq_nil_of_length_eq_zero (Nat.le_zero.mp hl)
    subst this
    rfl
  | succ n ih =>
    intro l hl
    cases l with
    | nil => rfl
    | cons u us =>
      rw [chunkAux_step n _ (by simp)]
      have hd : ((u :: us).drop 100).length ≤ n := by
        simp only [List.length_drop, List.length_cons] at hl ⊢
        omega
      rw [List.flatten_cons, ih _ hd, List.take_append_drop]

lemma chunkAux_dropLast :
    ∀ (fuel : Nat) (l : List Nat), l.length ≤ fuel →
      ∀ c ∈ (chunkAux fuel l).dropLast, c.length = 100 := by
  intro fuel
  induction fuel with
  | zero =>
    intro l hl c hc
    have : l = [] := List.eq_nil_of_length_eq_zero (Nat.le_zero.mp hl)
    subst this
    simp [chunkAux_nil] at hc
  | succ n ih =>
    intro l hl c hc
    cases l with
    | nil => simp [chunkAux_nil] at hc
    | cons u us =>
      rw [chunkAux_step n _ (by simp)] at hc
      have hd : ((u :: us).drop 100).length ≤ n := by
        simp only [List.length_drop, List.length_cons] at hl ⊢
        omega
      rcases hrest : chunkAux n ((u :: us).drop 100) with - | ⟨x, t⟩
      · rw [hrest] at hc
        simp at hc
      · rw [hrest] at hc
        have hne : (u :: us).drop 100 ≠ [] := by
          intro h0
          rw [h0, chunkAux_nil] at hrest
          exact absurd hrest (by simp)
        have hlong : 100 < (u :: us).length := by
          by_contra hle
          exact hne (List.drop_eq_nil_of_le (by omega))
        rw [List.dropLast_cons₂, List.mem_cons] at hc
        rcases hc with hc | hc
        · rw [hc, List.length_take]
          omega
        · exact ih _ hd c (by rw [hrest]; exact hc)

end Worker

namespace Worker

set_option maxRecDepth 8000

lemma chunkAux_mem :
    ∀ (fuel : Nat) (l : List Nat), l.length ≤ fuel →
      ∀ c ∈ chunkAux fuel l, 0 < c.length ∧ c.length ≤ 100 := by
  intro fuel
  induction fuel with
  | zero =>
    intro l hl c hc
    have : l = [] := List.eq_nil_of_length_eq_zero (Nat.le_zero.mp hl)
    subst this
    simp [chunkAux_nil] at hc
  | succ n ih =>
    intro l hl c hc
    cases l with
    | nil => simp [chunkAux_nil] at hc
    | cons u us =>
      rw [chunkAux_step n _ (by simp)] at hc
      have hd : ((u :: us).drop 100).length ≤ n := by
        simp only [List.length_drop, List.length_cons] at hl ⊢
        omega
      rcases List.mem_cons.mp hc with hc | hc
      · subst hc
        simp only [List.length_take, List.length_cons]
        omega
      · exact ih _ hd c hc

/-- C5: the stream emitter's frame sequence is one role-open frame, the
100-unit chunks of the text in order (each chunk non-empty and of length
100 except possibly the last, concatenating back to the text exactly),
one terminal frame, and the end sentinel; for a text of length 250 the
chunks are exactly three, of lengths 100, 100, 50. -/
theorem createStreamResponse_frames :
    ∀ units : List Nat,
      (chunkUnits units).flatten = units ∧
      (∀ c ∈ (chunkUnits units).dropLast, c.length = 100) ∧
      (∀ c ∈ chunkUnits units, 0 < c.length ∧ c.length ≤ 100) ∧
      createStreamFrames units =
        StreamFrame.roleOpen ::
          ((chunkUnits units).map StreamFrame.contentDelta ++
            [StreamFrame.terminal, StreamFrame.done]) ∧
      (units.length = 250 →
        chunkUnits units = [units.take 100, (units.drop 100).take 100, units.drop 200] ∧
        (chunkUnits units).map List.length = [100, 100, 50]) := by
  intro units
  refine ⟨chunkAux_flatten _ _ (le_refl _), chunkAux_dropLast _ _ (le_refl _),
    chunkAux_mem _ _ (le_refl _), rfl, ?_⟩
  intro h250
  have hne : units ≠ [] := by
    intro h0
    rw [h0] at h250
    simp at h250
  have hd1 : units.drop 100 ≠ [] := by
    intro h0
    have := congrArg List.length h0
    simp [List.length_drop, h250] at this
  have hd2 : units.drop (100 + 100) ≠ [] := by
    intro h0
    have := congrArg List.length h0
    simp [List.length_drop, h250] at this
  have hchunks :
      chunkUnits units = [units.take 100, (units.drop 100).take 100, units.drop 200] := by
    rw [chunkUnits, h250]
    rw [show (250 : Nat) = 249 + 1 from rfl, chunkAux_step _ _ hne]
    rw [show (249 : Nat) = 248 + 1 from rfl, chunkAux_step _ _ hd1]
    rw [List.drop_drop]
    rw [show (248 : Nat) = 247 + 1 from rfl, chunkAux_step _ _ hd2]
    have ht : (units.drop (100 + 100)).take 100 = units.drop (100 + 100) := by
      apply List.take_of_length_le
      simp [List.length_drop, h250]
    have hd3 : (units.drop (100 + 100)).drop 100 = [] := by
      apply List.drop_eq_nil_of_le
      simp [List.length_drop, h250]
    rw [ht, hd3, chunkAux_nil]
  refine ⟨hchunks, ?_⟩
  rw [hchunks]
  simp [List.length_take, List.length_drop, h250]

/-- Witness for C5 at a concrete length-250 text. -/
theorem createStreamResponse_frames_witness :
    (chunkUnits (List.replicate 250 7)).flatten = List.replicate 250 7 ∧
    (chunkUnits (List.replicate 250 7)).map List.length = [100, 100, 50] := by
  have h := createStreamResponse_frames (List.replicate 250 7)
  exact ⟨h.1, (h.2.2.2.2 (by decide)).2⟩

/-- The streamed text that breaks code-point chunking: 99 ASCII
characters followed by U+1F600, whose UTF-16 encoding is the surrogate
pair (55357, 56832) straddling the 100-unit chunk boundary. -/
def surrogatePairText : List Char := List.replicate 99 'a' ++ [Char.ofNat 128512]

/-- C8 (code_bug): the source slices the stream content by UTF-16 code
units, so for a text whose astral character straddles the 100-unit
boundary the first content-delta chunk ends with an unpaired high
surrogate (55357) and the second begins with the matching low surrogate
(56832) — the chunk boundary falls inside a code point, corrupting the
character, where the specification requires code-point boundaries. -/
theorem createStreamResponse_surrogate_split :
    stringUnits (String.mk surrogatePairText) = List.replicate 99 97 ++ [55357, 56832] ∧
    chunkUnits (stringUnits (String.mk surrogatePairText)) =
      [List.replicate 99 97 ++ [55357], [56832]] ∧
    (55296 ≤ 55357 ∧ 55357 ≤ 56319) ∧
    createStreamFrames (stringUnits (String.mk surrogatePairText)) =
      [StreamFrame.roleOpen, StreamFrame.contentDelta (List.replicate 99 97 ++ [55357]),
       StreamFrame.contentDelta [56832], StreamFrame.terminal, StreamFrame.done] := by
  exact ⟨by decide, by decide, by decide, rfl⟩

/-- C10: authentication fails closed — a missing Authorization header, a
header not starting with "Bearer ", or a key outside the comma-split
VALID_API_KEYS list is rejected 401 invalid_api_key, and with
VALID_API_KEYS unset or empty every request to an authenticated route is
rejected. -/
theorem validateAuth_fail_closed :
    (∀ env : Option String,
      validateAuth none env = .error ⟨"API key required", 401, "invalid_api_key"⟩) ∧
    (∀ (a : String) (env : Option String), jsStartsWith a ("Bearer ") = false →
      validateAuth (some a) env = .error ⟨"API key required", 401, "invalid_api_key"⟩) ∧
    (∀ a keys : String, jsStartsWith a ("Bearer ") = true → keys.data ≠ [] →
      String.mk (a.data.drop 7) ∉ (splitComma keys.data []).map String.mk →
      validateAuth (some a) (some keys) = .error ⟨"Invalid API key", 401, "invalid_api_key"⟩) ∧
    (∀ (auth : Option String) (env : Option String), env = none ∨ env = some ("") →
      ∃ m, validateAuth auth env = .error ⟨m, 401, "invalid_api_key"⟩) := by
  refine ⟨fun env => rfl, ?_, ?_, ?_⟩
  · intro a env h
    simp only [validateAuth]
    rw [if_pos (Or.inr h)]
  · intro a keys hb hk hmem
    have hane : ¬ (a.data = [] ∨ jsStartsWith a ("Bearer ") = false) := by
      rintro (h0 | h0)
      · have hsw : jsStartsWith a ("Bearer ") = false := by
          simp only [jsStartsWith]
          rw [h0]
          decide
        rw [hsw] at hb
        cases hb
      · rw [h0] at hb
        cases hb
    simp only [validateAuth]
    rw [if_neg hane]
    simp [hk, hmem]
  · rintro auth env (rfl | rfl)
    · cases auth with
      | none => exact ⟨_, rfl⟩
      | some a =>
        by_cases hb : a.data = [] ∨ jsStartsWith a ("Bearer ") = false
        · exact ⟨"API key required", by simp only [validateAuth]; rw [if_pos hb]⟩
        · refine ⟨"Invalid API key", ?_⟩
          simp only [validateAuth]
          rw [if_neg hb]
          simp
    · cases auth with
      | none => exact ⟨_, rfl⟩
      | some a =>
        by_cases hb : a.data = [] ∨ jsStartsWith a ("Bearer ") = false
        · exact ⟨"API key required", by simp only [validateAuth]; rw [if_pos hb]⟩
        · refine ⟨"Invalid API key", ?_⟩
          simp only [validateAuth]
          rw [if_neg hb]
          simp

/-- Witness for C10 at concrete headers and key lists. -/
theorem validateAuth_fail_closed_witness :
    validateAuth none none = .error ⟨"API key required", 401, "invalid_api_key"⟩ ∧
    validateAuth (some ("Basic zz")) (some ("k")) =
      .error ⟨"API key required", 401, "invalid_api_key"⟩ ∧
    validateAuth (some ("Bearer zz")) (some ("k1,k2")) =
      .error ⟨"Invalid API key", 401, "invalid_api_key"⟩ ∧
    (∃ m, validateAuth (some ("Bearer k1")) (some ("")) =
      .error ⟨m, 401, "invalid_api_key"⟩) :=
  ⟨validateAuth_fail_closed.1 none,
   validateAuth_fail_closed.2.1 _ _ (by decide),
   validateAuth_fail_closed.2.2.1 _ _ (by decide) (by decide) (by decide),
   validateAuth_fail_closed.2.2.2 _ _ (Or.inr rfl)⟩

end Worker

namespace Worker

set_option maxRecDepth 8000

lemma handleChatCompletion_api_status {ε : Type} (run : String → Js → Except ε Js)
    (cid : String) (ts : Int) (body : Js) (e : APIError)
    (h : handleChatCompletion run cid ts body = .error (.api e)) : e.statusCode = 400 := by
  simp only [handleChatCompletion] at h
  repeat (any_goals split at h)
  all_goals (try (cases h))
  all_goals rfl

lemma mapHandle_ne_payload {ε : Type} (r : Except (HandleErr ε) ChatOutcome)
    (hstatus : ∀ e, r = .error (.api e) → e.statusCode = 400) :
    mapHandleResult r ≠ .err ⟨"Request body too large", 413, "payload_too_large"⟩ := by
  intro h
  cases r with
  | ok o => simp [mapHandleResult] at h
  | error err =>
    cases err with
    | api e =>
      simp only [mapHandleResult, FetchOut.err.injEq] at h
      have := hstatus e rfl
      rw [h] at this
      simp at this
    | backend e2 => simp [mapHandleResult] at h
    | jsError => simp [mapHandleResult] at h

/-- C9: under a POST to /v1/chat/completions with valid authentication,
the 413 payload_too_large rejection happens exactly when a Content-Length
header is present and parseInt yields a value above 1048576; with no
Content-Length header the request is never rejected for size, whatever
the body. -/
theorem fetch_payload_guard :
    ∀ {ε : Type} (run : String → Js → Except ε Js) (env : Option String)
      (cid : String) (ts : Int) (req : HttpReq) (k : String),
      req.method = ("POST") → req.path = ("/v1/chat/completions") →
      validateAuth req.authorization env = .ok k →
      (fetchHandler run env cid ts req =
          .err ⟨"Request body too large", 413, "payload_too_large"⟩ ↔
        ∃ s v, req.contentLength = some s ∧ jsParseInt s = some v ∧ v > 1048576) := by
  intro ε run env cid ts req k hm hp hauth
  obtain ⟨m, p, auth, cl, body⟩ := req
  simp only at hm hp hauth
  subst hm
  subst hp
  have hred : fetchHandler run env cid ts ⟨"POST", "/v1/chat/completions", auth, cl, body⟩ =
      (if payloadCheck cl then
        FetchOut.err ⟨"Request body too large", 413, "payload_too_large"⟩
       else mapHandleResult (handleChatCompletion run cid ts body)) := by
    simp only [fetchHandler]
    rw [hauth]
    rfl
  rw [hred]
  cases cl with
  | none =>
    rw [if_neg (by simp [payloadCheck])]
    constructor
    · intro h
      exact absurd h (mapHandle_ne_payload _
        (fun e he => handleChatCompletion_api_status run cid ts body e he))
    · intro hex
      obtain ⟨s2, v2, hs2, hp2, hv2⟩ := hex
      exact Option.noConfusion hs2
  | some s =>
    cases hpi : jsParseInt s with
    | none =>
      rw [if_neg (by simp [payloadCheck, hpi])]
      constructor
      · intro h
        exact absurd h (mapHandle_ne_payload _
          (fun e he => handleChatCompletion_api_status run cid ts body e he))
      · intro hex
        obtain ⟨s2, v2, hs2, hp2, hv2⟩ := hex
        obtain rfl : s2 = s := by injection hs2 with h9; exact h9.symm
        rw [hpi] at hp2
        exact Option.noConfusion hp2
    | some v =>
      by_cases hv : v > 1048576
      · have hsne : s.data ≠ [] := by
          intro h0
          simp only [jsParseInt, h0, List.dropWhile_nil] at hpi
          exact Option.noConfusion hpi
        rw [if_pos (by simp [payloadCheck, hpi, hv, hsne])]
        constructor
        · intro _
          exact ⟨s, v, rfl, hpi, hv⟩
        · intro _
          rfl
      · rw [if_neg (by simp [payloadCheck, hpi, hv])]
        constructor
        · intro h
          exact absurd h (mapHandle_ne_payload _
            (fun e he => handleChatCompletion_api_status run cid ts body e he))
        · intro hex
          obtain ⟨s2, v2, hs2, hp2, hv2⟩ := hex
          obtain rfl : s2 = s := by injection hs2 with h9; exact h9.symm
          rw [hpi] at hp2
          obtain rfl : v2 = v := by injection hp2 with h9; exact h9.symm
          exact absurd hv2 hv

/-- Witness for C9: a two-megabyte Content-Length is rejected 413. -/
theorem fetch_payload_guard_witness :
    fetchHandler (fun _ _ => Except.ok Js.null : String → Js → Except Unit Js) (some ("k"))
        ("cid") 0 ⟨"POST", "/v1/chat/completions", some ("Bearer k"), some ("2000000"), Js.obj []⟩ =
      .err ⟨"Request body too large", 413, "payload_too_large"⟩ :=
  (fetch_payload_guard (fun _ _ => Except.ok Js.null) (some ("k")) ("cid") 0
      ⟨"POST", "/v1/chat/completions", some ("Bearer k"), some ("2000000"), Js.obj []⟩ ("k")
      rfl rfl rfl).mpr ⟨"2000000", 2000000, rfl, rfl, by decide⟩

end Worker

namespace Worker

set_option maxRecDepth 8000

/-! Structured extraction: claim C1. -/

lemma jsOfEntry_type (e : String × String) : getProp (jsOfEntry e) ("type") = Js.str e.1 := rfl

lemma jsOfEntry_text (e : String × String) : getProp (jsOfEntry e) ("text") = Js.str e.2 := rfl

lemma outputTexts_jsOfElem (es : List (String × String)) :
    outputTexts (jsOfElem es) =
      some ((es.filter (fun e => e.1 == ("output_text"))).map Prod.snd) := by
  have h : getProp (jsOfElem es) ("content") = Js.arr (es.map jsOfEntry) := rfl
  simp only [outputTexts, h]
  clear h
  refine congrArg some ?_
  induction es with
  | nil => rfl
  | cons e rest ih =>
    simp only [List.map_cons, List.filter_cons, jsOfEntry_type, jsIsStr_str, jsOfEntry_text,
      jsJoinElem_str]
    rcases Bool.eq_false_or_eq_true (e.1 == ("output_text")) with he | he <;>
      simp [he, ih, jsOfEntry_text, jsJoinElem_str]

lemma mapM_jsOfElem (elems : List (List (String × String))) :
    (elems.map jsOfElem).mapM outputTexts =
      some (elems.map (fun es => (es.filter (fun e => e.1 == ("output_text"))).map Prod.snd)) := by
  induction elems with
  | nil => rfl
  | cons es rest ih =>
    rw [List.map_cons, List.mapM_cons, outputTexts_jsOfElem, ih]
    rfl

/-- C1 (amended): under the STRUCTURED dialect, a response whose output
field is a sequence extracts to the newline-join, in order, of the text
of every content entry of type output_text across all elements; a
response whose output field is absent or not a sequence falls through to
the LEGACY extraction of the same response (field probing), not to empty
text. -/
theorem extractContent_structured_spec :
    (∀ elems : List (List (String × String)),
      extractContent (mkStructuredResponse elems) true = some (specOutputJoin elems)) ∧
    (∀ response : Js, isArr (getProp response ("output")) = false →
      extractContent response true = extractContent response false) := by
  constructor
  · intro elems
    show ((elems.map jsOfElem).mapM outputTexts).map
        (fun ls => String.intercalate ("\n") ls.flatten) = some (specOutputJoin elems)
    rw [mapM_jsOfElem]
    rfl
  · intro response hout
    cases h : getProp response ("output") with
    | arr xs =>
      rw [h] at hout
      simp [isArr] at hout
    | undefined => simp [extractContent, h]
    | null => simp [extractContent, h]
    | bool b => simp [extractContent, h]
    | num q => simp [extractContent, h]
    | str s => simp [extractContent, h]
    | obj fs => simp [extractContent, h]

/-- Witness for C1 at concrete inputs: the spec's round-trip example and
a fall-through response. -/
theorem extractContent_structured_spec_witness :
    extractContent (mkStructuredResponse [[("output_text", "A")], [("output_text", "B")]]) true =
      some (specOutputJoin [[("output_text", "A")], [("output_text", "B")]]) ∧
    extractContent (Js.obj [("response", Js.str ("hi"))]) true =
      extractContent (Js.obj [("response", Js.str ("hi"))]) false :=
  ⟨extractContent_structured_spec.1 _, extractContent_structured_spec.2 _ rfl⟩

/-- Counterexample to C1 as stated: a STRUCTURED-dialect response with no
output field extracts to the probed response field, not to empty text. -/
theorem extractContent_structured_empty_claim_false :
    extractContent (Js.obj [("response", Js.str ("hi"))]) true = some ("hi") ∧
    ("hi" : String) ≠ ("") := ⟨rfl, by decide⟩

/-! Structured request building: claim C4. -/

lemma find_system (msgs : List (String × String)) :
    (msgs.map (fun m => mkMsg m.1 m.2)).find?
        (fun m => jsIsStr (getProp m ("role")) ("system")) =
      (msgs.find? (fun m => m.1 == ("system"))).map (fun m => mkMsg m.1 m.2) := by
  induction msgs with
  | nil => rfl
  | cons m rest ih =>
    simp only [List.map_cons, List.find?_cons, getProp_mkMsg_role, jsIsStr_str]
    rcases Bool.eq_false_or_eq_true (m.1 == ("system")) with he | he <;> simp [he, ih]

lemma filter_user (msgs : List (String × String)) :
    ((msgs.map (fun m => mkMsg m.1 m.2)).filter
        (fun m => jsIsStr (getProp m ("role")) ("user"))).map
        (fun m => jsJoinElem (getProp m ("content"))) =
      (msgs.filter (fun m => m.1 == ("user"))).map Prod.snd := by
  induction msgs with
  | nil => rfl
  | cons m rest ih =>
    simp only [List.map_cons, List.filter_cons, getProp_mkMsg_role, jsIsStr_str,
      getProp_mkMsg_content, jsJoinElem_str]
    rcases Bool.eq_false_or_eq_true (m.1 == ("user")) with he | he <;>
      simp [he, ih, getProp_mkMsg_content, jsJoinElem_str]

lemma instructions_spec (msgs : List (String × String)) :
    jsOr ((((msgs.map (fun m => mkMsg m.1 m.2)).find?
        (fun m => jsIsStr (getProp m ("role")) ("system"))).map
        (fun m => getProp m ("content"))).getD Js.undefined) (Js.str defaultSystemPrompt) =
      Js.str (specInstructions msgs) := by
  rw [find_system]
  cases hf : msgs.find? (fun m => m.1 == ("system")) with
  | none => simp [specInstructions, hf, jsOr, truthy]
  | some m =>
    by_cases hm : m.2 = ("")
    · simp [specInstructions, hf, hm, jsOr, truthy, getProp_mkMsg_content]
    · have hne : m.2.data ≠ [] := by
        intro h0
        exact hm (String.ext h0)
      simp [specInstructions, hf, hm, jsOr, truthy, getProp_mkMsg_content, hne]

/-- C4 (amended): under the STRUCTURED dialect, for every non-empty
message sequence the built request's input is the newline-join of
exactly the user-role contents in original order (assistant messages are
ignored), and its instructions is the content of the first system-role
message when that content is non-empty, and the fixed helpful-assistant
default when no system message exists or when the first system message's
content is the empty string (the source's truthiness fallback). -/
theorem buildAIRequest_structured_spec :
    ∀ (cfModel : String) (msgs : List (String × String)),
      jsStartsWith cfModel ("@cf/openai/gpt-oss") = true →
      msgs ≠ [] →
      ∃ req, buildAIRequest (mkBody msgs) cfModel = some req ∧
        getProp req ("input") = Js.str (specUserInput msgs) ∧
        getProp req ("instructions") = Js.str (specInstructions msgs) := by
  intro cf msgs hcf hne
  refine ⟨Js.obj
    [("input", Js.str (specUserInput msgs)),
     ("instructions", Js.str (specInstructions msgs)),
     ("temperature", Js.num (7 / 10)),
     ("top_p", Js.num (9 / 10)),
     ("max_tokens", Js.num 2048),
     ("reasoning", Js.obj [("effort", Js.str ("medium"))])], ?_, rfl, rfl⟩
  simp only [buildAIRequest, getProp_mkBody_messages]
  rw [if_pos hcf, filter_user msgs, instructions_spec msgs]
  rfl

/-- Witness for C4 at a concrete multi-role conversation. -/
theorem buildAIRequest_structured_spec_witness :
    ∃ req, buildAIRequest
        (mkBody [("system", "be brief"), ("user", "a"), ("assistant", "x"), ("user", "b")])
        ("@cf/openai/gpt-oss-20b") = some req ∧
      getProp req ("input") =
        Js.str (specUserInput [("system", "be brief"), ("user", "a"), ("assistant", "x"), ("user", "b")]) ∧
      getProp req ("instructions") =
        Js.str (specInstructions [("system", "be brief"), ("user", "a"), ("assistant", "x"), ("user", "b")]) :=
  buildAIRequest_structured_spec _ _ rfl (by decide)

/-- Counterexample to C4 as stated: a first system message whose content
is the empty string yields the default instructions, not that content. -/
theorem buildAIRequest_empty_system_default :
    (buildAIRequest (mkBody [("system", ""), ("user", "hi")]) ("@cf/openai/gpt-oss-120b")).map
        (fun r => getProp r ("instructions")) = some (Js.str defaultSystemPrompt) ∧
    defaultSystemPrompt ≠ ("") := ⟨rfl, by decide⟩

end Worker

namespace Worker

set_option maxRecDepth 8000

/-! Fallback retry: claim C2. -/

lemma fallbackPrompt_mkBody (msgs : List (String × String))
    (h : ∀ m ∈ msgs, m.1 = ("system") ∨ m.1 = ("user") ∨ m.1 = ("assistant")) :
    fallbackPrompt (mkBody msgs) = some (specTranscript msgs) := by
  show some (String.intercalate ("\n\n")
      ((msgs.map (fun m => mkMsg m.1 m.2)).map
        (fun m => roleLabel (getProp m ("role")) ++ (": ") ++ jsToString (getProp m ("content"))))
      ++ ("\n\nAssistant: ")) = some (specTranscript msgs)
  refine congrArg some ?_
  have hmap : (msgs.map (fun m => mkMsg m.1 m.2)).map
      (fun m => roleLabel (getProp m ("role")) ++ (": ") ++ jsToString (getProp m ("content"))) =
      msgs.map (fun m => specRoleLabel m.1 ++ (": ") ++ m.2) := by
    rw [List.map_map]
    apply List.map_congr_left
    intro m hm
    rcases h m hm with h1 | h1 | h1 <;>
      simp [Function.comp, getProp_mkMsg_role, getProp_mkMsg_content, roleLabel,
        specRoleLabel, jsToString, h1]
  show String.intercalate ("\n\n")
      ((msgs.map (fun m => mkMsg m.1 m.2)).map
        (fun m => roleLabel (getProp m ("role")) ++ (": ") ++ jsToString (getProp m ("content"))))
      ++ ("\n\nAssistant: ") =
    String.intercalate ("\n\n") (msgs.map (fun m => specRoleLabel m.1 ++ (": ") ++ m.2)) ++
      ("\n\nAssistant: ")
  rw [hmap]

/-- C2: if the first backend call fails under the STRUCTURED dialect the
failure propagates immediately with no retry; under the LEGACY dialect
the backend is retried exactly once with the request
(prompt = the flattened "RoleLabel: content" transcript joined by blank
lines plus the trailing "Assistant: " cue, and the already-resolved
temperature, top_p and max_tokens); if the retry fails, its failure
propagates. -/
theorem callAI_retry_policy :
    ∀ {ε : Type} (run : String → Js → Except ε Js) (cfModel : String) (aiRequest body : Js)
      (e : ε),
      run cfModel aiRequest = Except.error e →
      (callAI run cfModel aiRequest body true = some (Except.error e)) ∧
      (∀ msgs : List (String × String),
        (∀ m ∈ msgs, m.1 = ("system") ∨ m.1 = ("user") ∨ m.1 = ("assistant")) →
        body = mkBody msgs →
        callAI run cfModel aiRequest body false =
          some (run cfModel (Js.obj
            [("prompt", Js.str (specTranscript msgs)),
             ("temperature", getProp aiRequest ("temperature")),
             ("top_p", getProp aiRequest ("top_p")),
             ("max_tokens", getProp aiRequest ("max_tokens"))]))) ∧
      (∀ (msgs : List (String × String)) (e2 : ε),
        (∀ m ∈ msgs, m.1 = ("system") ∨ m.1 = ("user") ∨ m.1 = ("assistant")) →
        body = mkBody msgs →
        run cfModel (Js.obj
          [("prompt", Js.str (specTranscript msgs)),
           ("temperature", getProp aiRequest ("temperature")),
           ("top_p", getProp aiRequest ("top_p")),
           ("max_tokens", getProp aiRequest ("max_tokens"))]) = Except.error e2 →
        callAI run cfModel aiRequest body false = some (Except.error e2)) := by
  intro ε run cf aiReq body e hrun
  refine ⟨?_, ?_, ?_⟩
  · simp [callAI, hrun]
  · intro msgs hroles hbody
    subst hbody
    simp [callAI, hrun, fallbackPrompt_mkBody msgs hroles]
  · intro msgs e2 hroles hbody hrun2
    subst hbody
    simp [callAI, hrun, fallbackPrompt_mkBody msgs hroles, hrun2]

/-- Witness for C2 with a backend that rejects the first shape and
accepts the prompt-shaped fallback. -/
theorem callAI_retry_policy_witness :
    callAI (fun _ r => match getProp r ("prompt") with
        | Js.str _ => Except.ok (Js.str ("fb"))
        | _ => Except.error ("boom"))
      ("m") (Js.obj []) (mkBody [("user", "hi")]) true = some (Except.error ("boom")) ∧
    callAI (fun _ r => match getProp r ("prompt") with
        | Js.str _ => Except.ok (Js.str ("fb"))
        | _ => Except.error ("boom"))
      ("m") (Js.obj []) (mkBody [("user", "hi")]) false = some (Except.ok (Js.str ("fb"))) := by
  have h := callAI_retry_policy
    (fun _ r => match getProp r ("prompt") with
      | Js.str _ => Except.ok (Js.str ("fb"))
      | _ => Except.error ("boom"))
    ("m") (Js.obj []) (mkBody [("user", "hi")]) ("boom") rfl
  refine ⟨h.1, ?_⟩
  rw [h.2.1 [("user", "hi")] (by simp) rfl]
  rfl

end Worker

namespace Worker

set_option maxRecDepth 8000

/-! The "Assistant: " cue truncation: claim C3. -/

lemma assistantCue_eq :
    assistantCue = ['A', 's', 's', 'i', 's', 't', 'a', 'n', 't', ':', ' '] := rfl

lemma assistantCue_length : assistantCue.length = 11 := rfl

lemma jsOr_truthy (a b : Js) (h : truthy a = true) : jsOr a b = a := by
  simp [jsOr, h]

lemma splitCueAux_ne_nil (fuel : Nat) (l : List Char) : splitCueAux fuel l ≠ [] := by
  cases l with
  | nil => cases fuel <;> simp [splitCueAux]
  | cons c cs =>
    cases fuel with
    | zero => simp [splitCueAux]
    | succ n =>
      simp only [splitCueAux]
      split
      · simp
      · rcases hs : splitCueAux n cs with - | ⟨x, t⟩ <;> simp [hs]

lemma splitCueAux_step_pos (n : Nat) (l : List Char) (hne : l ≠ [])
    (h : l.take 11 = assistantCue) :
    splitCueAux (n + 1) l = [] :: splitCueAux n (l.drop 11) := by
  cases l with
  | nil => exact absurd rfl hne
  | cons c cs => simp only [splitCueAux, if_pos h]

lemma splitCueAux_step_neg (n : Nat) (c : Char) (cs : List Char)
    (h : ¬ (c :: cs).take 11 = assistantCue) :
    splitCueAux (n + 1) (c :: cs) =
      (match splitCueAux n cs with
       | [] => [[c]]
       | h2 :: t => (c :: h2) :: t) := by
  simp only [splitCueAux, if_neg h]

lemma splitCueAux_no_cue :
    ∀ (l : List Char) (fuel : Nat), hasCue l = false → splitCueAux fuel l = [l] := by
  intro l
  induction l with
  | nil => intro fuel h; cases fuel <;> rfl
  | cons c cs ih =>
    intro fuel h
    by_cases hc : (c :: cs).take 11 = assistantCue
    · simp [hasCue, hc] at h
    · have h2 : hasCue cs = false := by
        simp only [hasCue, if_neg hc] at h
        exact h
      cases fuel with
      | zero => rfl
      | succ n =>
        rw [splitCueAux_step_neg n c cs hc, ih n h2]

lemma hasCue_of_take (l : List Char) (h : l.take 11 = assistantCue) : hasCue l = true := by
  cases l with
  | nil =>
    rw [show ([] : List Char).take 11 = [] from rfl] at h
    exact absurd h (by decide)
  | cons c cs => simp [hasCue, h]

lemma hasCue_append_cue (p r : List Char) : hasCue (p ++ assistantCue ++ r) = true := by
  induction p with
  | nil =>
    rw [List.nil_append]
    apply hasCue_of_take
    rw [show (11 : Nat) = assistantCue.length from rfl]
    exact List.take_left _ _
  | cons a p2 ih =>
    simp only [List.cons_append]
    simp only [hasCue]
    split
    · rfl
    · exact ih

lemma splitCueAux_len2 :
    ∀ (l : List Char) (fuel : Nat), l.length ≤ fuel → hasCue l = true →
      2 ≤ (splitCueAux fuel l).length := by
  intro l
  induction l with
  | nil =>
    intro fuel hf h
    simp [hasCue] at h
  | cons c cs ih =>
    intro fuel hf h
    cases fuel with
    | zero => simp at hf
    | succ n =>
      by_cases hc : (c :: cs).take 11 = assistantCue
      · simp only [splitCueAux, if_pos hc]
        rcases hs : splitCueAux n ((c :: cs).drop 11) with - | ⟨x, t⟩
        · exact absurd hs (splitCueAux_ne_nil _ _)
        · simp [hs]
      · have h2 : hasCue cs = true := by
          simp only [hasCue, if_neg hc] at h
          exact h
        have hf2 : cs.length ≤ n := by
          simp only [List.length_cons] at hf
          omega
        have hlen := ih n hf2 h2
        simp only [splitCueAux, if_neg hc]
        rcases hs : splitCueAux n cs with - | ⟨x, t⟩
        · exact absurd hs (splitCueAux_ne_nil _ _)
        · rw [hs] at hlen
          show 2 ≤ ((c :: x) :: t).length
          simp only [List.length_cons] at hlen ⊢
          omega

lemma getLastD_congr {α : Type} (l : List α) (a b : α) (h : l ≠ []) :
    l.getLastD a = l.getLastD b := by
  rw [List.getLastD_eq_getLast?, List.getLastD_eq_getLast?, List.getLast?_eq_getLast l h]
  rfl

lemma cue_no_border :
    ∀ k : Nat, 1 ≤ k → k ≤ 10 → assistantCue.take (11 - k) ≠ assistantCue.drop k := by
  intro k h1 h2
  interval_cases k <;> decide

lemma splitCue_last :
    ∀ (fuel : Nat) (p r d : List Char), hasCue r = false →
      (p ++ assistantCue ++ r).length ≤ fuel →
      (splitCueAux fuel (p ++ assistantCue ++ r)).getLastD d = r := by
  intro fuel
  induction fuel with
  | zero =>
    intro p r d hr hl
    exfalso
    simp only [List.length_append, assistantCue_length] at hl
    omega
  | succ n ih =>
    intro p r d hr hl
    by_cases hc : (p ++ assistantCue ++ r).take 11 = assistantCue
    · rw [splitCueAux_step_pos n _ (by simp [assistantCue_eq]) hc]
      cases p with
      | nil =>
        have hdrop : (([] : List Char) ++ assistantCue ++ r).drop 11 = r := by
          rw [List.nil_append, show (11 : Nat) = assistantCue.length from rfl]
          exact List.drop_left _ _
        rw [hdrop, splitCueAux_no_cue r n hr]
        rfl
      | cons a p2 =>
        rcases Nat.lt_or_ge (a :: p2).length 11 with hlen | hlen
        · exfalso
          rw [List.append_assoc, List.take_append_eq_append_take,
            List.take_of_length_le (le_of_lt hlen)] at hc
          have hx : (assistantCue ++ r).take (11 - (a :: p2).length) =
              assistantCue.take (11 - (a :: p2).length) := by
            rw [List.take_append_eq_append_take]
            have h0 : 11 - (a :: p2).length - assistantCue.length = 0 := by
              rw [assistantCue_length]
              omega
            rw [h0]
            simp
          rw [hx] at hc
          have hdrop := congrArg (List.drop (a :: p2).length) hc
          rw [List.drop_append_eq_append_drop, List.drop_length, Nat.sub_self,
            List.drop_zero, List.nil_append] at hdrop
          have h1k : 1 ≤ (a :: p2).length := by simp
          have h2k : (a :: p2).length ≤ 10 := by omega
          exact cue_no_border _ h1k h2k hdrop
        · have hdrop : ((a :: p2) ++ assistantCue ++ r).drop 11 =
              ((a :: p2).drop 11) ++ assistantCue ++ r := by
            rw [List.append_assoc, List.drop_append_eq_append_drop]
            have h0 : 11 - (a :: p2).length = 0 := by omega
            rw [h0, List.drop_zero, ← List.append_assoc]
          rw [hdrop]
          have hl2 : (((a :: p2).drop 11) ++ assistantCue ++ r).length ≤ n := by
            simp only [List.length_append, List.length_drop, List.length_cons,
              assistantCue_length] at hl ⊢
            omega
          rw [List.getLastD_cons]
          exact ih _ _ _ hr hl2
    · cases p with
      | nil =>
        exfalso
        apply hc
        rw [List.nil_append, show (11 : Nat) = assistantCue.length from rfl]
        exact List.take_left _ _
      | cons a p2 =>
        have hs9 : (a :: p2) ++ assistantCue ++ r = a :: (p2 ++ assistantCue ++ r) := by simp
        rw [hs9] at hc ⊢
        rw [splitCueAux_step_neg n a _ hc]
        have hin : hasCue (p2 ++ assistantCue ++ r) = true := hasCue_append_cue p2 r
        have hl2 : (p2 ++ assistantCue ++ r).length ≤ n := by
          rw [hs9] at hl
          simp only [List.length_cons] at hl
          omega
        have h2 := splitCueAux_len2 _ n hl2 hin
        rcases hsp : splitCueAux n (p2 ++ assistantCue ++ r) with - | ⟨x, t⟩
        · exact absurd hsp (splitCueAux_ne_nil _ _)
        · rw [hsp] at h2
          cases t with
          | nil => simp at h2
          | cons y t2 =>
            have hih := ih p2 r d hr hl2
            rw [hsp] at hih
            show ((a :: x) :: y :: t2).getLastD d = r
            rw [List.getLastD_cons]
            rw [List.getLastD_cons] at hih
            rw [getLastD_congr (y :: t2) (a :: x) x (by simp)]
            exact hih

lemma cleanContentChars_after_cue (p r : List Char) (hr : hasCue r = false) :
    cleanContentChars (p ++ assistantCue ++ r) = String.mk r := by
  rw [cleanContentChars, if_pos (hasCue_append_cue p r)]
  exact congrArg String.mk (splitCue_last _ p r _ hr (le_refl _))

lemma extractProbe_response_str (s : String) (h : truthy (Js.str s) = true) :
    extractProbe (Js.obj [("response", Js.str s)]) = some (cleanContent s) := by
  show (if truthy (jsOr (jsOr (jsOr (Js.str s) Js.undefined) Js.undefined) Js.null) = true then
      match jsOr (jsOr (jsOr (Js.str s) Js.undefined) Js.undefined) Js.null with
      | Js.str s2 => some (cleanContent s2)
      | _ => none
    else jsonStringify (Js.obj [("response", Js.str s)])) = some (cleanContent s)
  rw [jsOr_truthy _ _ h, jsOr_truthy _ _ h, jsOr_truthy _ _ h]
  rw [if_pos h]

lemma intercalate_singleton (sep s : String) : String.intercalate sep [s] = s := rfl

/-- C3 (amended): the "everything after the last Assistant: cue"
truncation applies to text reaching the field-probing extraction (under
both dialects — the STRUCTURED dialect also probes when the response has
no output sequence); the STRUCTURED output-array path returns the joined
text verbatim, without the truncation. -/
theorem extractContent_cue_truncation :
    (∀ (d : Bool) (p r : List Char), hasCue r = false →
      extractContent (Js.obj [("response",
        Js.str (String.mk (p ++ assistantCue ++ r)))]) d = some (String.mk r)) ∧
    (∀ s : String,
      extractContent (mkStructuredResponse [[("output_text", s)]]) true = some s) := by
  constructor
  · intro d p r hr
    have htr : truthy (Js.str (String.mk (p ++ assistantCue ++ r))) = true := by
      simp only [truthy, decide_eq_true_eq]
      show (p ++ assistantCue ++ r) ≠ []
      simp [assistantCue_eq]
    have hprobe := extractProbe_response_str (String.mk (p ++ assistantCue ++ r)) htr
    have hclean : cleanContent (String.mk (p ++ assistantCue ++ r)) = String.mk r := by
      show cleanContentChars (p ++ assistantCue ++ r) = String.mk r
      exact cleanContentChars_after_cue p r hr
    cases d
    · show extractProbe (Js.obj [("response",
        Js.str (String.mk (p ++ assistantCue ++ r)))]) = some (String.mk r)
      rw [hprobe, hclean]
    · show extractProbe (Js.obj [("response",
        Js.str (String.mk (p ++ assistantCue ++ r)))]) = some (String.mk r)
      rw [hprobe, hclean]
  · intro s
    have h1 : extractContent (mkStructuredResponse [[("output_text", s)]]) true =
        some (String.intercalate ("\n") [s]) := rfl
    rw [h1, intercalate_singleton]

/-- Witness for C3 at concrete probe text and a concrete structured
response. -/
theorem extractContent_cue_truncation_witness :
    extractContent (Js.obj [("response",
      Js.str (String.mk (("x").data ++ assistantCue ++ ("ok").data)))]) false =
      some (String.mk ("ok").data) ∧
    extractContent (mkStructuredResponse [[("output_text", "A")]]) true = some ("A") :=
  ⟨extractContent_cue_truncation.1 false ("x").data ("ok").data (by decide),
   extractContent_cue_truncation.2 ("A")⟩

/-- Counterexample to C3 as stated: the STRUCTURED output-array path
returns text containing the cue verbatim instead of truncating it. -/
theorem extractContent_cue_structured_not_truncated :
    extractContent (mkStructuredResponse [[("output_text", "Assistant: hi")]]) true =
      some ("Assistant: hi") ∧
    hasCue ("Assistant: hi").data = true ∧
    ("Assistant: hi" : String) ≠ ("hi") := ⟨rfl, by decide, by decide⟩

end Worker
